import Mathlib

/-!
Shallow embedding of `examples/drake/generators.py` (pddlstream, drake example):
the data model (`Pose`, `Conf`, `Trajectory`), the candidate generators
(`get_stable_gen`), the constrained motion synthesizers (`get_ik_fn`,
`get_pull_fn`), the fluent-scoped motion planner (`get_motion_fn`) and the
post-hoc collision oracle (`get_collision_test`).

Rigid transforms, the kinematics context, the collision service and the
external planners are collaborators of the source file; they are modelled as
parameters: an abstract transform type `T` with composition data `Geom`,
an explicit `Context` record for the mutable simulation context, and
function-valued parameters for the planner and collision callbacks.
-/

namespace DrakeGen

/-- Rigid-body handles; Drake body indices are modelled as naturals. -/
abbrev Body := Nat

/-- Model-instance handles. -/
abbrev Model := Nat

/-- Joint handles. -/
abbrev Joint := Nat

/-- The slice of the MultibodyPlant the generators consult:
`get_model_bodies(mbp, model)` and `joint.child_body()`. -/
structure MBP where
  modelBodies : Model → Finset Body
  jointChild : Joint → Body

/-- The mutable simulation context: world pose of each model instance and the
position of each joint.  `assign` calls destructively update this record. -/
structure Context (T : Type) where
  worldPose : Model → T
  jointPos : Joint → Int

/-- Composition data of the external transform type: `multiply`, `inverse`
and the identity transform (the world-frame pose). -/
structure Geom (T : Type) where
  mul : T → T → T
  inv : T → T
  one : T

/-- A body frame, as consumed by `get_relative_transform(mbp, context, frame)`:
its world transform is a function of the current context. -/
structure Frame (T : Type) where
  rel : Context T → T

/-- `set_world_pose(mbp, context, model, pose)`: overwrite the world
pose, leaving the rest of the context unchanged. -/
def setWorldPose {T : Type} (ctx : Context T) (m : Model) (v : T) : Context T :=
  { ctx with worldPose := fun n => if n = m then v else ctx.worldPose n }

/-- `set_joint_position(joint, context, position)`. -/
def setJointPosition {T : Type} (j : Joint) (ctx : Context T) (v : Int) : Context T :=
  { ctx with jointPos := fun n => if n = j then v else ctx.jointPos n }

/-- `bodies_from_models(mbp, models)`. -/
def bodies_from_models (mbp : MBP) (models : List Model) : Finset Body :=
  models.foldl (fun s m => s ∪ mbp.modelBodies m) ∅

/-- The `Pose` class: a transform of a child model relative to a parent frame. -/
structure Pose (T : Type) where
  parent : Frame T
  child : Model
  transform : T

/-- `Pose.bodies`: the bodies of the child model. -/
def Pose.bodies {T : Type} (mbp : MBP) (p : Pose T) : Finset Body :=
  mbp.modelBodies p.child

/-- `Pose.assign(context)`: recompute the current world transform of the
parent frame, compose with the stored relative transform, and write the
result as the world pose of the child model. -/
def Pose.assign {T : Type} (g : Geom T) (p : Pose T) (ctx : Context T) : Context T :=
  setWorldPose ctx p.child (g.mul (p.parent.rel ctx) p.transform)

/-- The `Conf` class: joint handles paired with positions. -/
structure Conf where
  joints : List Joint
  positions : List Int

/-- `Conf.__init__`: the `assert len(joints) == len(positions)` guard;
a mismatch is a fatal error. -/
def Conf.init (joints : List Joint) (positions : List Int) : Except String Conf :=
  if joints.length = positions.length then Except.ok ⟨joints, positions⟩
  else Except.error ("len mismatch")

/-- `Conf.bodies`: the child body of each joint. -/
def Conf.bodies (mbp : MBP) (c : Conf) : Finset Body :=
  (c.joints.map mbp.jointChild).toFinset

/-- `Conf.assign(context)`: write each joint position in order. -/
def Conf.assign {T : Type} (c : Conf) (ctx : Context T) : Context T :=
  (c.joints.zip c.positions).foldl (fun s jp => setJointPosition jp.1 s jp.2) ctx

/-- The `Trajectory` class: a path of configurations plus attachments. -/
structure Trajectory (T : Type) where
  path : List Conf
  attachments : List (Pose T)

/-- `Trajectory.joints` is `path[0].joints` (an empty path is an error in the
source; the defined cases are modelled). -/
def Trajectory.joints {T : Type} (t : Trajectory T) : List Joint :=
  (t.path.headD ⟨[], []⟩).joints

/-- `Trajectory.bodies`: joint child bodies plus the bodies of every attachment. -/
def Trajectory.bodies {T : Type} (mbp : MBP) (t : Trajectory T) : Finset Body :=
  t.attachments.foldl (fun s a => s ∪ Pose.bodies mbp a)
    ((t.joints.map mbp.jointChild).toFinset)

/-- One step of `Trajectory.iterate`: assign the configuration, then assign
every attachment in list order. -/
def iterStep {T : Type} (g : Geom T) (atts : List (Pose T)) (conf : Conf)
    (ctx : Context T) : Context T :=
  atts.foldl (fun c a => Pose.assign g a c) (conf.assign ctx)

/-- The loop of `Trajectory.iterate` over the remaining configurations,
collecting the context at each yield. -/
def iterAux {T : Type} (g : Geom T) (atts : List (Pose T)) :
    List Conf → Context T → List (Context T)
  | [], _ => []
  | conf :: rest, ctx =>
    let c2 := iterStep g atts conf ctx
    c2 :: iterAux g atts rest c2

/-- `Trajectory.iterate(context)`: step through `path[1:]`, returning the
context at each yield. -/
def Trajectory.iterate {T : Type} (g : Geom T) (t : Trajectory T)
    (ctx : Context T) : List (Context T) :=
  iterAux g t.attachments (t.path.drop 1) ctx

theorem setWorldPose_idem {T : Type} (ctx : Context T) (m : Model) (v : T) :
    setWorldPose (setWorldPose ctx m v) m v = setWorldPose ctx m v := by
  simp only [setWorldPose]
  congr 1
  funext n
  by_cases h : n = m <;> simp [h]

/-- C8: `Pose.assign` run twice on the same context with the same parent,
child and transform writes the same world pose as the first run, provided
the world transform of the parent frame is unchanged by the first assignment
(the context is otherwise unchanged between the two calls). -/
theorem pose_assign_idempotent {T : Type} (g : Geom T) (p : Pose T) (ctx : Context T)
    (h : p.parent.rel (Pose.assign g p ctx) = p.parent.rel ctx) :
    Pose.assign g p (Pose.assign g p ctx) = Pose.assign g p ctx := by
  simp only [Pose.assign] at h ⊢
  rw [h]
  exact setWorldPose_idem ctx p.child (g.mul (p.parent.rel ctx) p.transform)

/-- Concrete transform instance for witnesses: integer translations along a
line, composed by addition. -/
def gInt : Geom Int := ⟨fun a b => a + b, fun a => -a, 0⟩

/-- A concrete all-zero context. -/
def ctx0 : Context Int := ⟨fun _ => 0, fun _ => 0⟩

/-- A concrete frame whose world transform is constant. -/
def frameK : Frame Int := ⟨fun _ => 2⟩

/-- A concrete pose used by witnesses. -/
def poseW : Pose Int := ⟨frameK, 0, 5⟩

/-- Witness for C8 at a concrete pose and context. -/
theorem pose_assign_idempotent_witness :
    poseW.parent.rel (Pose.assign gInt poseW ctx0) = poseW.parent.rel ctx0 ∧
    Pose.assign gInt poseW (Pose.assign gInt poseW ctx0) = Pose.assign gInt poseW ctx0 :=
  ⟨rfl, pose_assign_idempotent gInt poseW ctx0 rfl⟩

/-- The retry loop of `get_ik_fn`: `while (attempts - last_success) < max_failures`,
incrementing `attempts`, running one attempt, and on success recording
`last_success = attempts` and returning at once.  The pair returned is the
final `attempts` count and the result (`none` models the implicit Python
`None` on exhaustion). -/
def ikLoopAux {R : Type} (outcome : Nat → Option R) (maxFailures : Nat)
    (attempts lastSuccess : Nat) : Nat × Option R :=
  if _h : attempts - lastSuccess < maxFailures then
    match outcome (attempts + 1) with
    | some r => (attempts + 1, some r)
    | none => ikLoopAux outcome maxFailures (attempts + 1) lastSuccess
  else (attempts, none)
termination_by maxFailures + lastSuccess - attempts
decreasing_by omega

/-- One attempt of `get_ik_fn`: `plan_workspace_motion` (the per-waypoint
workspace IK), then `plan_waypoints_joint_motion`, then wrap the joint path
as a `Trajectory` of `Conf`s and return its last configuration with it. -/
def ikAttempt {T : Type} (planWorkspace : Nat → Option (List (List Int)))
    (planWaypoints : Nat → List (List Int) → Option (List (List Int)))
    (joints : List Joint) (n : Nat) : Option (Conf × Trajectory T) :=
  match planWorkspace n with
  | none => none
  | some waypoints =>
    match planWaypoints n waypoints with
    | none => none
    | some path =>
      let traj : Trajectory T := ⟨path.map (fun q => ⟨joints, q⟩), []⟩
      some (traj.path.getLastD ⟨[], []⟩, traj)

/-- The inner `fn` of `get_ik_fn`, from the retry loop onward, with the two
external planners and the attempt outcomes abstracted. -/
def get_ik_fn_run {T : Type} (planWorkspace : Nat → Option (List (List Int)))
    (planWaypoints : Nat → List (List Int) → Option (List (List Int)))
    (joints : List Joint) (maxFailures : Nat) : Nat × Option (Conf × Trajectory T) :=
  ikLoopAux (ikAttempt planWorkspace planWaypoints joints) maxFailures 0 0

/-- Default `max_failures` of `get_ik_fn`. -/
def ik_default_max_failures : Nat := 5

theorem ikLoopAux_all_none {R : Type} (outcome : Nat → Option R)
    (hout : ∀ n, outcome n = none) :
    ∀ (fuel maxF attempts lastSuccess : Nat),
      maxF + lastSuccess - attempts ≤ fuel → lastSuccess ≤ attempts →
      attempts ≤ lastSuccess + maxF →
      ikLoopAux outcome maxF attempts lastSuccess = (lastSuccess + maxF, none) := by
  intro fuel
  induction fuel with
  | zero =>
    intro maxF a l hf h1 h2
    have ha : a = l + maxF := by omega
    rw [ikLoopAux, dif_neg (by omega)]
    exact congrArg (fun x => (x, none)) ha
  | succ fuel ih =>
    intro maxF a l hf h1 h2
    by_cases hg : a - l < maxF
    · rw [ikLoopAux, dif_pos hg, hout (a + 1)]
      exact ih maxF (a + 1) l (by omega) (by omega) (by omega)
    · have ha : a = l + maxF := by omega
      rw [ikLoopAux, dif_neg hg]
      exact congrArg (fun x => (x, none)) ha

theorem ikLoopAux_fst_le {R : Type} (outcome : Nat → Option R) :
    ∀ (fuel maxF attempts lastSuccess : Nat),
      maxF + lastSuccess - attempts ≤ fuel →
      (ikLoopAux outcome maxF attempts lastSuccess).1 ≤
        max attempts (lastSuccess + maxF) := by
  intro fuel
  induction fuel with
  | zero =>
    intro maxF a l hf
    rw [ikLoopAux, dif_neg (by omega)]
    exact le_max_left a (l + maxF)
  | succ fuel ih =>
    intro maxF a l hf
    by_cases hg : a - l < maxF
    · rw [ikLoopAux, dif_pos hg]
      cases hr : outcome (a + 1) with
      | some r => simpa using (by omega : a + 1 ≤ max a (l + maxF))
      | none =>
        have := ih maxF (a + 1) l (by omega)
        exact le_trans this (by omega)
    · rw [ikLoopAux, dif_neg hg]
      exact le_max_left a (l + maxF)

/-- C1: if every attempt of `get_ik_fn` fails (both planning stages produce
nothing on every attempt), the retry loop performs exactly `max_failures`
attempts and then returns an absent result; the loop aborts exactly when
`attempts - last_success` reaches `max_failures`. -/
theorem get_ik_fn_all_failures_aborts {T : Type}
    (planWorkspace : Nat → Option (List (List Int)))
    (planWaypoints : Nat → List (List Int) → Option (List (List Int)))
    (joints : List Joint) (maxFailures : Nat)
    (h : ∀ n, ikAttempt (T := T) planWorkspace planWaypoints joints n = none) :
    get_ik_fn_run (T := T) planWorkspace planWaypoints joints maxFailures
      = (maxFailures, none) := by
  have := ikLoopAux_all_none (ikAttempt (T := T) planWorkspace planWaypoints joints)
    h maxFailures maxFailures 0 0 (by omega) (by omega) (by omega)
  simpa [get_ik_fn_run] using this

/-- Witness for C1: with planners that always fail and the default
`max_failures = 5`, the loop runs exactly 5 attempts and returns `none`. -/
theorem get_ik_fn_all_failures_aborts_witness :
    (∀ n, ikAttempt (T := Int) (fun _ => none) (fun _ _ => none) [] n = none) ∧
    get_ik_fn_run (T := Int) (fun _ => none) (fun _ _ => none) [] ik_default_max_failures
      = (ik_default_max_failures, none) :=
  ⟨fun _ => rfl,
    get_ik_fn_all_failures_aborts (fun _ => none) (fun _ _ => none) []
      ik_default_max_failures (fun _ => rfl)⟩

/-- C9 counterexample: no outcome sequence whatsoever makes the `get_ik_fn`
loop perform strictly more than `max_failures = 5` total attempts — on the
first success the function returns immediately, so the failure-counter reset
never enables extra attempts. -/
theorem ik_fatigue_counterexample :
    ¬ ∃ (planWorkspace : Nat → Option (List (List Int)))
        (planWaypoints : Nat → List (List Int) → Option (List (List Int)))
        (joints : List Joint),
        5 < (get_ik_fn_run (T := Int) planWorkspace planWaypoints joints 5).1 := by
  rintro ⟨pw, pj, joints, hlt⟩
  have hb := ikLoopAux_fst_le (ikAttempt (T := Int) pw pj joints) 5 5 0 0 (by omega)
  simp only [get_ik_fn_run] at hlt
  omega

/-- C9 amended: the loop returns on the first success, so for every sequence
of per-attempt outcomes the total number of attempts is at most
`max_failures`; arbitrarily many total attempts are impossible. -/
theorem ik_attempts_le_max_failures {T : Type}
    (planWorkspace : Nat → Option (List (List Int)))
    (planWaypoints : Nat → List (List Int) → Option (List (List Int)))
    (joints : List Joint) (maxFailures : Nat) :
    (get_ik_fn_run (T := T) planWorkspace planWaypoints joints maxFailures).1
      ≤ maxFailures := by
  have hb := ikLoopAux_fst_le (ikAttempt (T := T) planWorkspace planWaypoints joints)
    maxFailures maxFailures 0 0 (by omega)
  simpa [get_ik_fn_run] using hb

/-- The handle-geometry scan of `get_pull_fn`: `for i in range(2)` over the
`box_from_geom` entries of the door body, breaking at the first entry whose
shape tag matches; the `for`-`else` raises `RuntimeError(shape)` when no
entry matches. -/
def scanShapes (entryShape : Nat → String) (shape : String) :
    List Nat → Except String Nat
  | [] => Except.error shape
  | i :: rest =>
    if entryShape i = shape then Except.ok i else scanShapes entryShape shape rest

/-- The scan instantiated at `range(2)`, as in the source. -/
def findHandleIndex (entryShape : Nat → String) (shape : String) : Except String Nat :=
  scanShapes entryShape shape (List.range 2)

/-- The expected handle shape tag in `get_pull_fn`. -/
def pull_shape : String := "cylinder"

/-- One attempt of `get_pull_fn`: workspace IK over the reversed pull path,
reverse the waypoints back, build the boundary robot configurations, zip with
the door joint path into combined waypoints, and solve the combined joint
path (whose collision predicate is a constant `False` in the source). -/
def pullAttempt {T : Type} (planWorkspace : Nat → Option (List (List Int)))
    (planJoint : Nat → List (List Int) → Option (List (List Int)))
    (robotJoints doorJoints : List Joint) (doorJointPath : List (List Int))
    (n : Nat) : Option (Conf × Conf × Trajectory T) :=
  match planWorkspace n with
  | none => none
  | some wps0 =>
    let wps := wps0.reverse
    let rq1 : Conf := ⟨robotJoints, wps.headD []⟩
    let rq2 : Conf := ⟨robotJoints, wps.getLastD []⟩
    let combinedJoints := robotJoints ++ doorJoints
    let combinedWaypoints := (wps.zip doorJointPath).map (fun p => p.1 ++ p.2)
    match planJoint n combinedWaypoints with
    | none => none
    | some path =>
      some (rq1, rq2, ⟨path.map (fun q => ⟨combinedJoints, q⟩), []⟩)

/-- The flat retry loop of `get_pull_fn`: `for _ in range(max_attempts)`,
returning the first successful attempt.  The pair returned is the number of
attempts performed and the result. -/
def pullLoopAux {R : Type} (attempt : Nat → Option R) :
    Nat → Nat → Nat × Option R
  | used, 0 => (used, none)
  | used, Nat.succ rem =>
    match attempt used with
    | some r => (used + 1, some r)
    | none => pullLoopAux attempt (used + 1) rem

/-- Default `max_attempts` of `get_pull_fn`. -/
def pull_default_max_attempts : Nat := 25

/-- The inner `fn` of `get_pull_fn` from the handle scan onward: scan for the
expected handle shape (raising on absence), then run the flat retry loop. -/
def get_pull_fn_run {T : Type} (entryShape : Nat → String)
    (planWorkspace : Nat → Option (List (List Int)))
    (planJoint : Nat → List (List Int) → Option (List (List Int)))
    (robotJoints doorJoints : List Joint) (doorJointPath : List (List Int))
    (maxAttempts : Nat) :
    Except String (Nat × Option (Conf × Conf × Trajectory T)) :=
  match findHandleIndex entryShape pull_shape with
  | Except.error e => Except.error e
  | Except.ok _ =>
    Except.ok (pullLoopAux
      (pullAttempt (T := T) planWorkspace planJoint robotJoints doorJoints doorJointPath)
      0 maxAttempts)

theorem pullLoopAux_all_none {R : Type} (attempt : Nat → Option R)
    (h : ∀ n, attempt n = none) :
    ∀ (rem used : Nat), pullLoopAux attempt used rem = (used + rem, none) := by
  intro rem
  induction rem with
  | zero => intro used; simp [pullLoopAux]
  | succ rem ih =>
    intro used
    rw [pullLoopAux]
    rw [h used]
    rw [ih (used + 1)]
    exact congrArg (fun x => (x, none)) (by omega)

theorem pullLoopAux_fst_le {R : Type} (attempt : Nat → Option R) :
    ∀ (rem used : Nat), (pullLoopAux attempt used rem).1 ≤ used + rem := by
  intro rem
  induction rem with
  | zero => intro used; simp [pullLoopAux]
  | succ rem ih =>
    intro used
    rw [pullLoopAux]
    cases hr : attempt used with
    | some r => exact (by omega : used + 1 ≤ used + (rem + 1))
    | none => exact le_trans (ih (used + 1)) (by omega)

/-- C7: `get_pull_fn` retries with a flat bounded loop — never more than
`max_attempts` attempts for any outcomes — and when the handle scan succeeds
but the workspace IK or the combined joint-path step fails on every
iteration, it returns an explicit absent result after exactly `max_attempts`
attempts rather than raising. -/
theorem get_pull_fn_bounded_retry {T : Type} (entryShape : Nat → String)
    (planWorkspace : Nat → Option (List (List Int)))
    (planJoint : Nat → List (List Int) → Option (List (List Int)))
    (robotJoints doorJoints : List Joint) (doorJointPath : List (List Int))
    (maxAttempts : Nat)
    (hshape : ∃ i, i < 2 ∧ entryShape i = pull_shape)
    (hfail : ∀ n, planWorkspace n = none ∨ ∀ w, planJoint n w = none) :
    get_pull_fn_run (T := T) entryShape planWorkspace planJoint
        robotJoints doorJoints doorJointPath maxAttempts
      = Except.ok (maxAttempts, none) ∧
    ∀ (pw2 : Nat → Option (List (List Int)))
      (pj2 : Nat → List (List Int) → Option (List (List Int))),
      (pullLoopAux
        (pullAttempt (T := T) pw2 pj2 robotJoints doorJoints doorJointPath)
        0 maxAttempts).1 ≤ maxAttempts := by
  have hattempt : ∀ n, pullAttempt (T := T) planWorkspace planJoint
      robotJoints doorJoints doorJointPath n = none := by
    intro n
    rcases hfail n with hw | hj
    · simp [pullAttempt, hw]
    · cases hw : planWorkspace n with
      | none => simp [pullAttempt, hw]
      | some wps0 => simp [pullAttempt, hw, hj]
  have hfound : ∃ j, findHandleIndex entryShape pull_shape = Except.ok j := by
    rcases hshape with ⟨i, hi, hs⟩
    unfold findHandleIndex
    have hrange : List.range 2 = [0, 1] := rfl
    rw [hrange]
    by_cases h0 : entryShape 0 = pull_shape
    · exact ⟨0, by simp [scanShapes, h0]⟩
    · have hi1 : i = 1 := by
        by_contra hne
        have hz : i = 0 := by omega
        exact h0 (hz ▸ hs)
      exact ⟨1, by simp [scanShapes, h0, hi1 ▸ hs]⟩
  constructor
  · rcases hfound with ⟨j, hj⟩
    rw [get_pull_fn_run, hj]
    rw [pullLoopAux_all_none _ hattempt maxAttempts 0]
    simp
  · intro pw2 pj2
    have := pullLoopAux_fst_le
      (pullAttempt (T := T) pw2 pj2 robotJoints doorJoints doorJointPath)
      maxAttempts 0
    omega

/-- Witness for C7: handle found at index 1, all 25 default attempts fail,
and the call returns `ok (25, none)`. -/
theorem get_pull_fn_bounded_retry_witness :
    (∃ i, i < 2 ∧ (fun k => if k = 1 then pull_shape else "box") i = pull_shape) ∧
    (∀ n, (fun _ : Nat => (none : Option (List (List Int)))) n = none ∨
      ∀ w, (fun _ : Nat => fun _ : List (List Int) =>
        (none : Option (List (List Int)))) n w = none) ∧
    get_pull_fn_run (T := Int) (fun k => if k = 1 then pull_shape else "box")
        (fun _ => none) (fun _ _ => none) [] [] [] pull_default_max_attempts
      = Except.ok (pull_default_max_attempts, none) :=
  ⟨⟨1, by omega, rfl⟩, fun _ => Or.inl rfl,
    (get_pull_fn_bounded_retry (T := Int) (fun k => if k = 1 then pull_shape else "box")
      (fun _ => none) (fun _ _ => none) [] [] [] pull_default_max_attempts
      ⟨1, by omega, rfl⟩ (fun _ => Or.inl rfl)).1⟩

/-- The fluent vocabulary of `get_motion_fn`; `unknown` carries any other
predicate string, on which the source raises `ValueError(predicate)`. -/
inductive Fluent (T : Type) where
  | atconf : String → Conf → Fluent T
  | atpose : String → Pose T → Fluent T
  | atgrasp : String → String → Pose T → Fluent T
  | unknown : String → Fluent T

/-- Whether the predicate of a fluent belongs to the closed vocabulary. -/
def Fluent.recognized {T : Type} : Fluent T → Bool
  | .unknown _ => false
  | _ => true

/-- The bodies a fluent contributes to the moving set (`atgrasp` only). -/
def Fluent.movingBodies {T : Type} (mbp : MBP) : Fluent T → Finset Body
  | .atgrasp _ _ grasp => Pose.bodies mbp grasp
  | _ => ∅

/-- The bodies a fluent contributes to the obstacle set
(`atconf` and `atpose` only). -/
def Fluent.obstacleBodies {T : Type} (mbp : MBP) : Fluent T → Finset Body
  | .atconf _ conf => Conf.bodies mbp conf
  | .atpose _ pose => Pose.bodies mbp pose
  | _ => ∅

/-- The fluent loop of `get_motion_fn`: assign `atconf`/`atpose` values and
grow the obstacle set, record `atgrasp` grasps as attachments and grow the
moving set, and raise on an unrecognized predicate. -/
def processFluents {T : Type} (mbp : MBP) (g : Geom T) :
    List (Fluent T) → Context T → Finset Body → Finset Body → List (Pose T) →
    Except String (Context T × Finset Body × Finset Body × List (Pose T))
  | [], ctx, moving, obstacles, atts => Except.ok (ctx, moving, obstacles, atts)
  | f :: rest, ctx, moving, obstacles, atts =>
    match f with
    | .atconf _ conf =>
      processFluents mbp g rest (conf.assign ctx) moving
        (obstacles ∪ Conf.bodies mbp conf) atts
    | .atpose _ pose =>
      processFluents mbp g rest (Pose.assign g pose ctx) moving
        (obstacles ∪ Pose.bodies mbp pose) atts
    | .atgrasp _ _ grasp =>
      processFluents mbp g rest ctx (moving ∪ Pose.bodies mbp grasp)
        obstacles (atts ++ [grasp])
    | .unknown p => Except.error p

/-- The moving/obstacle-set computation of `get_motion_fn`: start from the
bodies of the mover and the gripper and the fixed bodies, run the fluent loop, and
finally subtract the moving set from the obstacle set. -/
def get_motion_fn_sets {T : Type} (mbp : MBP) (g : Geom T) (robot gripper : Model)
    (fixedBodies : Finset Body) (fluents : List (Fluent T)) (ctx : Context T) :
    Except String (Context T × Finset Body × Finset Body × List (Pose T)) :=
  match processFluents mbp g fluents ctx (bodies_from_models mbp [robot, gripper])
      fixedBodies [] with
  | Except.error e => Except.error e
  | Except.ok (ctx2, moving, obstacles, atts) =>
    Except.ok (ctx2, moving, obstacles \ moving, atts)

/-- Projection of `get_motion_fn_sets` onto the (moving, obstacle) pair,
dropping the context and the attachment list. -/
def motionMovingObstacles {T : Type} (mbp : MBP) (g : Geom T) (robot gripper : Model)
    (fixedBodies : Finset Body) (fluents : List (Fluent T)) (ctx : Context T) :
    Except String (Finset Body × Finset Body) :=
  Except.map (fun r => (r.2.1, r.2.2.1))
    (get_motion_fn_sets mbp g robot gripper fixedBodies fluents ctx)

theorem processFluents_ok_spec {T : Type} (mbp : MBP) (g : Geom T) :
    ∀ (fl : List (Fluent T)) (ctx : Context T) (m o : Finset Body) (a : List (Pose T)),
      (∀ f ∈ fl, f.recognized = true) →
      ∃ ctx2 m2 o2 a2,
        processFluents mbp g fl ctx m o a = Except.ok (ctx2, m2, o2, a2) ∧
        m ⊆ m2 ∧ o ⊆ o2 ∧
        ∀ f ∈ fl, Fluent.movingBodies mbp f ⊆ m2 ∧ Fluent.obstacleBodies mbp f ⊆ o2 := by
  intro fl
  induction fl with
  | nil =>
    intro ctx m o a _
    exact ⟨ctx, m, o, a, rfl, le_refl m, le_refl o, by simp⟩
  | cons f rest ih =>
    intro ctx m o a hrec
    have hrest : ∀ x ∈ rest, Fluent.recognized x = true := by
      intro x hx; exact hrec x (List.mem_cons_of_mem f hx)
    cases f with
    | atconf name conf =>
      obtain ⟨ctx2, m2, o2, a2, heq, hm, ho, hall⟩ :=
        ih (conf.assign ctx) m (o ∪ Conf.bodies mbp conf) a hrest
      refine ⟨ctx2, m2, o2, a2, heq, hm, le_trans Finset.subset_union_left ho, ?_⟩
      intro x hx
      rcases List.mem_cons.mp hx with hx | hx
      · subst hx
        constructor
        · simp [Fluent.movingBodies]
        · exact le_trans (by simp [Fluent.obstacleBodies])
            (le_trans Finset.subset_union_right ho)
      · exact hall x hx
    | atpose name pose =>
      obtain ⟨ctx2, m2, o2, a2, heq, hm, ho, hall⟩ :=
        ih (Pose.assign g pose ctx) m (o ∪ Pose.bodies mbp pose) a hrest
      refine ⟨ctx2, m2, o2, a2, heq, hm, le_trans Finset.subset_union_left ho, ?_⟩
      intro x hx
      rcases List.mem_cons.mp hx with hx | hx
      · subst hx
        constructor
        · simp [Fluent.movingBodies]
        · exact le_trans (by simp [Fluent.obstacleBodies])
            (le_trans Finset.subset_union_right ho)
      · exact hall x hx
    | atgrasp r name grasp =>
      obtain ⟨ctx2, m2, o2, a2, heq, hm, ho, hall⟩ :=
        ih ctx (m ∪ Pose.bodies mbp grasp) o (a ++ [grasp]) hrest
      refine ⟨ctx2, m2, o2, a2, heq, le_trans Finset.subset_union_left hm, ho, ?_⟩
      intro x hx
      rcases List.mem_cons.mp hx with hx | hx
      · subst hx
        constructor
        · exact le_trans (by simp [Fluent.movingBodies])
            (le_trans Finset.subset_union_right hm)
        · simp [Fluent.obstacleBodies]
      · exact hall x hx
    | unknown p =>
      exact absurd (hrec (Fluent.unknown p) (List.mem_cons_self _ _))
        (by simp [Fluent.recognized])

theorem processFluents_error_of_unknown {T : Type} (mbp : MBP) (g : Geom T) :
    ∀ (fl : List (Fluent T)) (ctx : Context T) (m o : Finset Body) (a : List (Pose T)),
      (∃ f ∈ fl, f.recognized = false) →
      ∃ e, processFluents mbp g fl ctx m o a = Except.error e := by
  intro fl
  induction fl with
  | nil => intro ctx m o a h; simp at h
  | cons f rest ih =>
    intro ctx m o a h
    cases f with
    | atconf name conf =>
      apply ih
      rcases h with ⟨x, hx, hxr⟩
      rcases List.mem_cons.mp hx with hx | hx
      · subst hx; simp [Fluent.recognized] at hxr
      · exact ⟨x, hx, hxr⟩
    | atpose name pose =>
      apply ih
      rcases h with ⟨x, hx, hxr⟩
      rcases List.mem_cons.mp hx with hx | hx
      · subst hx; simp [Fluent.recognized] at hxr
      · exact ⟨x, hx, hxr⟩
    | atgrasp r name grasp =>
      apply ih
      rcases h with ⟨x, hx, hxr⟩
      rcases List.mem_cons.mp hx with hx | hx
      · subst hx; simp [Fluent.recognized] at hxr
      · exact ⟨x, hx, hxr⟩
    | unknown p => exact ⟨p, rfl⟩

/-- C3 counterexample: with fluents `[atpose A, atgrasp r1 B]` whose pose and
grasp share the same model (body set `{0}`), the atpose bodies do NOT end in
the obstacle set: the final subtraction removes them because they are also in
the moving set.  `mbp` maps model `m` to body set `{m}`; robot is model 1,
gripper model 2, fixed bodies `{9}`. -/
theorem motion_fluent_obstacle_counterexample :
    ((motionMovingObstacles (⟨fun m => {m}, fun j => j⟩ : MBP) gInt 1 2 {9}
        [Fluent.atpose "A" (⟨frameK, 0, 7⟩ : Pose Int),
         Fluent.atgrasp "r1" "B" (⟨frameK, 0, 3⟩ : Pose Int)] ctx0).toOption.getD
        (∅, ∅)).1 = {0, 1, 2} ∧
    ((motionMovingObstacles (⟨fun m => {m}, fun j => j⟩ : MBP) gInt 1 2 {9}
        [Fluent.atpose "A" (⟨frameK, 0, 7⟩ : Pose Int),
         Fluent.atgrasp "r1" "B" (⟨frameK, 0, 3⟩ : Pose Int)] ctx0).toOption.getD
        (∅, ∅)).2 = {9} ∧
    Pose.bodies (⟨fun m => {m}, fun j => j⟩ : MBP) (⟨frameK, 0, 7⟩ : Pose Int) = {0} ∧
    ¬ (({0} : Finset Nat) ⊆ ({9} : Finset Nat)) := by
  refine ⟨by decide, by decide, by decide, by decide⟩

/-- C3 amended: for every fluent list drawn from the closed vocabulary, the
fluent loop succeeds; the grasp bodies of every `atgrasp` fluent end in the moving
set; the bodies of every `atconf` or `atpose` fluent end in the union of the moving
and obstacle sets (they end in the obstacle set unless the moving set also
claims them, in which case the final subtraction removes them); and after the
final subtraction no body is in both sets. -/
theorem motion_fluent_sets_spec {T : Type} (mbp : MBP) (g : Geom T)
    (robot gripper : Model) (fixedBodies : Finset Body)
    (fluents : List (Fluent T)) (ctx : Context T)
    (h : ∀ f ∈ fluents, f.recognized = true) :
    ∃ ctx2 moving obstacles atts,
      get_motion_fn_sets mbp g robot gripper fixedBodies fluents ctx
        = Except.ok (ctx2, moving, obstacles, atts) ∧
      moving ∩ obstacles = ∅ ∧
      (∀ f ∈ fluents, Fluent.movingBodies mbp f ⊆ moving) ∧
      (∀ f ∈ fluents, Fluent.obstacleBodies mbp f ⊆ moving ∪ obstacles) := by
  obtain ⟨ctx2, m2, o2, a2, heq, hm, ho, hall⟩ :=
    processFluents_ok_spec mbp g fluents ctx
      (bodies_from_models mbp [robot, gripper]) fixedBodies [] h
  refine ⟨ctx2, m2, o2 \ m2, a2, ?_, ?_, ?_, ?_⟩
  · rw [get_motion_fn_sets, heq]
  · exact Finset.inter_sdiff_self m2 o2
  · intro f hf; exact (hall f hf).1
  · intro f hf
    intro b hb
    have hbo : b ∈ o2 := (hall f hf).2 hb
    by_cases hbm : b ∈ m2
    · exact Finset.mem_union_left _ hbm
    · exact Finset.mem_union_right _ (Finset.mem_sdiff.mpr ⟨hbo, hbm⟩)

/-- Witness for the amended C3 theorem: the scenario given by the spec with distinct
models for the pose and the grasp. -/
theorem motion_fluent_sets_spec_witness :
    (∀ f ∈ [Fluent.atpose "A" (⟨frameK, 3, 7⟩ : Pose Int),
            Fluent.atgrasp "r1" "B" (⟨frameK, 4, 3⟩ : Pose Int)],
      f.recognized = true) ∧
    (∃ ctx2 moving obstacles atts,
      get_motion_fn_sets (⟨fun m => {m}, fun j => j⟩ : MBP) gInt 1 2 {9}
          [Fluent.atpose "A" (⟨frameK, 3, 7⟩ : Pose Int),
           Fluent.atgrasp "r1" "B" (⟨frameK, 4, 3⟩ : Pose Int)] ctx0
        = Except.ok (ctx2, moving, obstacles, atts) ∧
      moving ∩ obstacles = ∅ ∧
      (∀ f ∈ [Fluent.atpose "A" (⟨frameK, 3, 7⟩ : Pose Int),
              Fluent.atgrasp "r1" "B" (⟨frameK, 4, 3⟩ : Pose Int)],
        Fluent.movingBodies (⟨fun m => {m}, fun j => j⟩ : MBP) f ⊆ moving) ∧
      (∀ f ∈ [Fluent.atpose "A" (⟨frameK, 3, 7⟩ : Pose Int),
              Fluent.atgrasp "r1" "B" (⟨frameK, 4, 3⟩ : Pose Int)],
        Fluent.obstacleBodies (⟨fun m => {m}, fun j => j⟩ : MBP) f ⊆ moving ∪ obstacles)) :=
  ⟨by intro f hf; rcases List.mem_cons.mp hf with h | h
      · subst h; rfl
      · rcases List.mem_cons.mp h with h2 | h2
        · subst h2; rfl
        · simp at h2,
    motion_fluent_sets_spec (⟨fun m => {m}, fun j => j⟩ : MBP) gInt 1 2 {9}
      [Fluent.atpose "A" (⟨frameK, 3, 7⟩ : Pose Int),
       Fluent.atgrasp "r1" "B" (⟨frameK, 4, 3⟩ : Pose Int)] ctx0
      (by intro f hf; rcases List.mem_cons.mp hf with h | h
          · subst h; rfl
          · rcases List.mem_cons.mp h with h2 | h2
            · subst h2; rfl
            · simp at h2)⟩

/-- C4: the three precondition violations are fatal errors: a `Conf` with
mismatched joint/position counts fails construction, an unrecognized fluent
predicate makes the fluent loop raise, and a handle scan that finds no entry
with the expected shape tag raises. -/
theorem precondition_violations_error :
    (∀ (joints : List Joint) (positions : List Int),
      joints.length ≠ positions.length →
      ∃ e, Conf.init joints positions = Except.error e) ∧
    (∀ (mbp : MBP) (g : Geom Int) (fl : List (Fluent Int)) (ctx : Context Int)
        (m o : Finset Body) (a : List (Pose Int)),
      (∃ f ∈ fl, f.recognized = false) →
      ∃ e, processFluents mbp g fl ctx m o a = Except.error e) ∧
    (∀ (entryShape : Nat → String) (shape : String),
      (∀ i, i < 2 → entryShape i ≠ shape) →
      findHandleIndex entryShape shape = Except.error shape) := by
  refine ⟨?_, ?_, ?_⟩
  · intro joints positions h
    exact ⟨"len mismatch", by rw [Conf.init, if_neg h]⟩
  · intro mbp g fl ctx m o a h
    exact processFluents_error_of_unknown mbp g fl ctx m o a h
  · intro entryShape shape h
    have hrange : List.range 2 = [0, 1] := rfl
    rw [findHandleIndex, hrange]
    simp [scanShapes, h 0 (by omega), h 1 (by omega)]

/-- Witness for C4 at concrete violating inputs. -/
theorem precondition_violations_error_witness :
    (([0] : List Joint).length ≠ ([] : List Int).length ∧
      ∃ e, Conf.init [0] [] = Except.error e) ∧
    ((∃ f ∈ [Fluent.unknown (T := Int) "holding"], f.recognized = false) ∧
      ∃ e, processFluents (⟨fun m => {m}, fun j => j⟩ : MBP) gInt
        [Fluent.unknown "holding"] ctx0 ∅ ∅ [] = Except.error e) ∧
    ((∀ i, i < 2 → (fun _ : Nat => "box") i ≠ pull_shape) ∧
      findHandleIndex (fun _ => "box") pull_shape = Except.error pull_shape) :=
  ⟨⟨by decide, precondition_violations_error.1 [0] [] (by decide)⟩,
    ⟨⟨Fluent.unknown "holding", by simp, rfl⟩,
      precondition_violations_error.2.1 (⟨fun m => {m}, fun j => j⟩ : MBP) gInt
        [Fluent.unknown "holding"] ctx0 ∅ ∅ []
        ⟨Fluent.unknown "holding", by simp, rfl⟩⟩,
    ⟨fun i _ => (by decide : ("box" : String) ≠ pull_shape),
      precondition_violations_error.2.2 (fun _ => "box") pull_shape
        (fun i _ => (by decide : ("box" : String) ≠ pull_shape))⟩⟩

/-- The moving set of `get_collision_test`: the robot and gripper bodies
plus the trajectory bodies. -/
def collisionMoving {T : Type} (mbp : MBP) (robot gripper : Model)
    (traj : Trajectory T) : Finset Body :=
  bodies_from_models mbp [robot, gripper] ∪ Trajectory.bodies mbp traj

/-- The obstacle set of `get_collision_test`: the bodies of the candidate pose
minus the moving set. -/
def collisionObstacles {T : Type} (mbp : MBP) (robot gripper : Model)
    (traj : Trajectory T) (pose : Pose T) : Finset Body :=
  Pose.bodies mbp pose \ collisionMoving mbp robot gripper traj

/-- The inner `test` of `get_collision_test`: short-circuit when collisions are
disabled or the candidate pair set is empty; otherwise assign the pose once,
iterate the trajectory, and report whether any step collides. -/
def get_collision_test_fn {T : Type} (g : Geom T) (mbp : MBP) (collisions : Bool)
    (robot gripper : Model)
    (existsColliding : Context T → Finset (Body × Body) → Bool)
    (traj : Trajectory T) (pose : Pose T) (ctx : Context T) : Bool :=
  if collisions = false then false
  else
    let pairs := collisionMoving mbp robot gripper traj ×ˢ
      collisionObstacles mbp robot gripper traj pose
    if pairs = ∅ then false
    else
      (Trajectory.iterate g traj (Pose.assign g pose ctx)).any
        (fun c => existsColliding c pairs)

/-- A concrete two-configuration trajectory with no joints and no
attachments, used by the C5 counterexample. -/
def trajX : Trajectory Int := ⟨[⟨[], []⟩, ⟨[], []⟩], []⟩

/-- A concrete pose whose child is model 1, used by the C5 counterexample. -/
def poseX : Pose Int := ⟨frameK, 1, 4⟩

/-- C5 counterexample: the moving and obstacle body sets are disjoint (the
obstacle set is built by subtracting the moving set, so they always are),
yet with a colliding pair available (moving `{0}` versus obstacle `{1}`) and
an always-true collision service the test returns `true` — so "returns false
whenever the moving and obstacle sets are disjoint" fails.  The robot and
gripper are both model 0 with body set `{0}`. -/
theorem collision_test_disjoint_counterexample :
    collisionMoving (⟨fun m => {m}, fun j => j⟩ : MBP) 0 0 trajX ∩
      collisionObstacles (⟨fun m => {m}, fun j => j⟩ : MBP) 0 0 trajX poseX = ∅ ∧
    get_collision_test_fn gInt (⟨fun m => {m}, fun j => j⟩ : MBP) true 0 0
      (fun _ _ => true) trajX poseX ctx0 = true := by
  refine ⟨by decide, by decide⟩

/-- C5 amended: the oracle returns `false` when collision checking is
globally disabled, and returns `false` when the candidate pair set
`moving ×ˢ obstacles` is empty (the two sets are disjoint by construction,
so the real short-circuit condition is emptiness of the pair product, not
disjointness); otherwise it assigns the candidate pose once and returns
`true` exactly when some step of the iteration reports a colliding pair. -/
theorem collision_test_spec {T : Type} (g : Geom T) (mbp : MBP) (collisions : Bool)
    (robot gripper : Model)
    (existsColliding : Context T → Finset (Body × Body) → Bool)
    (traj : Trajectory T) (pose : Pose T) (ctx : Context T) :
    (collisions = false →
      get_collision_test_fn g mbp collisions robot gripper existsColliding traj pose ctx
        = false) ∧
    (collisionMoving mbp robot gripper traj ×ˢ
        collisionObstacles mbp robot gripper traj pose = ∅ →
      get_collision_test_fn g mbp collisions robot gripper existsColliding traj pose ctx
        = false) ∧
    (collisions = true →
      collisionMoving mbp robot gripper traj ×ˢ
        collisionObstacles mbp robot gripper traj pose ≠ ∅ →
      (get_collision_test_fn g mbp collisions robot gripper existsColliding traj pose ctx
          = true ↔
        ∃ c ∈ Trajectory.iterate g traj (Pose.assign g pose ctx),
          existsColliding c (collisionMoving mbp robot gripper traj ×ˢ
            collisionObstacles mbp robot gripper traj pose) = true)) := by
  refine ⟨?_, ?_, ?_⟩
  · intro h; simp [get_collision_test_fn, h]
  · intro h
    rw [get_collision_test_fn]
    by_cases hc : collisions = false
    · simp [hc]
    · simp [hc, h]
  · intro hc hp
    rw [get_collision_test_fn]
    simp [hc, hp, List.any_eq_true]

/-- Witness for the amended C5 theorem: the disabled case returns `false`, and
in an enabled case with a nonempty pair set the result is `true` exactly when
some step collides (here: the always-true service on a one-step trajectory). -/
theorem collision_test_spec_witness :
    get_collision_test_fn gInt (⟨fun m => {m}, fun j => j⟩ : MBP) false 0 0
      (fun _ _ => true) trajX poseX ctx0 = false ∧
    (get_collision_test_fn gInt (⟨fun m => {m}, fun j => j⟩ : MBP) true 0 0
        (fun _ _ => true) trajX poseX ctx0 = true ↔
      ∃ c ∈ Trajectory.iterate gInt trajX (Pose.assign gInt poseX ctx0),
        (fun _ _ => true : Context Int → Finset (Body × Body) → Bool) c
          (collisionMoving (⟨fun m => {m}, fun j => j⟩ : MBP) 0 0 trajX ×ˢ
            collisionObstacles (⟨fun m => {m}, fun j => j⟩ : MBP) 0 0 trajX poseX)
          = true) :=
  ⟨(collision_test_spec gInt (⟨fun m => {m}, fun j => j⟩ : MBP) false 0 0
      (fun _ _ => true) trajX poseX ctx0).1 rfl,
    (collision_test_spec gInt (⟨fun m => {m}, fun j => j⟩ : MBP) true 0 0
      (fun _ _ => true) trajX poseX ctx0).2.2 rfl (by decide)⟩

theorem iterAux_length {T : Type} (g : Geom T) (atts : List (Pose T)) :
    ∀ (l : List Conf) (ctx : Context T), (iterAux g atts l ctx).length = l.length := by
  intro l
  induction l with
  | nil => intro ctx; rfl
  | cons c rest ih =>
    intro ctx
    simp [iterAux, ih]

theorem iterAux_get? {T : Type} (g : Geom T) (atts : List (Pose T)) :
    ∀ (l : List Conf) (ctx : Context T) (i : Nat) (conf : Conf) (prev : Context T),
      l.get? i = some conf →
      (ctx :: iterAux g atts l ctx).get? i = some prev →
      (iterAux g atts l ctx).get? i = some (iterStep g atts conf prev) := by
  intro l
  induction l with
  | nil =>
    intro ctx i conf prev h1 h2
    simp at h1
  | cons c rest ih =>
    intro ctx i conf prev h1 h2
    cases i with
    | zero =>
      simp at h1 h2
      subst h1
      subst h2
      rfl
    | succ j =>
      have h1j : rest.get? j = some conf := by simpa using h1
      have h2j : (iterStep g atts c ctx :: iterAux g atts rest (iterStep g atts c ctx)).get? j
          = some prev := by
        simpa [iterAux] using h2
      have := ih (iterStep g atts c ctx) j conf prev h1j h2j
      simpa [iterAux] using this

/-- C2: `Trajectory.iterate` over a path of N configurations yields exactly
N-1 steps, and the context at each yielded step is the result of assigning
the configuration of that step to the previous context and then assigning every
attachment in attachment-list order. -/
theorem trajectory_iterate_steps {T : Type} (g : Geom T) (t : Trajectory T)
    (ctx : Context T) (hN : 1 ≤ t.path.length) :
    (Trajectory.iterate g t ctx).length = t.path.length - 1 ∧
    ∀ (i : Nat) (conf : Conf) (prev : Context T),
      t.path.get? (i + 1) = some conf →
      (ctx :: Trajectory.iterate g t ctx).get? i = some prev →
      (Trajectory.iterate g t ctx).get? i = some (iterStep g t.attachments conf prev) := by
  constructor
  · rw [Trajectory.iterate, iterAux_length, List.length_drop]
  · intro i conf prev h1 h2
    apply iterAux_get?
    · rw [List.get?_drop]
      simpa [Nat.add_comm] using h1
    · exact h2

/-- A concrete three-configuration trajectory with one attachment, for the
C2 witness. -/
def trajW : Trajectory Int := ⟨[⟨[0], [1]⟩, ⟨[0], [2]⟩, ⟨[0], [3]⟩], [poseW]⟩

/-- Witness for C2 on a concrete path of length 3: two yielded steps, and the
first yielded context is the step function applied to the initial context. -/
theorem trajectory_iterate_steps_witness :
    1 ≤ trajW.path.length ∧
    (Trajectory.iterate gInt trajW ctx0).length = trajW.path.length - 1 ∧
    (Trajectory.iterate gInt trajW ctx0).get? 0
      = some (iterStep gInt trajW.attachments ⟨[0], [2]⟩ ctx0) :=
  ⟨by decide,
    (trajectory_iterate_steps gInt trajW ctx0 (by decide)).1,
    (trajectory_iterate_steps gInt trajW ctx0 (by decide)).2 0 ⟨[0], [2]⟩ ctx0 rfl rfl⟩

/-- The inputs of one `get_stable_gen` `gen(obj_name, surface)` call: the
composition data, plant slice, object model, collision toggle and fixed
bodies, the collision service, the body pose of the surface and the two local
box offsets, the external placement sampler (a stream of
`surface_from_object` transforms) and the shared mutable context. -/
structure StableSetup (T : Type) where
  g : Geom T
  mbp : MBP
  obj : Model
  collisions : Bool
  fixed : Finset Body
  existsColliding : Context T → Finset (Body × Body) → Bool
  surfacePose : T
  surfaceLocal : T
  objectLocal : T
  samples : Nat → T
  ctx : Context T

/-- The world frame: `mbp.world_frame()`, whose relative transform is the
identity in every context. -/
def worldFrame {T : Type} (g : Geom T) : Frame T := ⟨fun _ => g.one⟩

/-- The candidate world pose of sample `n`:
`surface_pose * surface_local * surface_from_object * the inverse of object_local` with
left-associated composition, exactly as the source composes it. -/
def stableCandidate {T : Type} (s : StableSetup T) (n : Nat) : T :=
  s.g.mul (s.g.mul (s.g.mul s.surfacePose s.surfaceLocal) (s.samples n))
    (s.g.inv s.objectLocal)

/-- The `Pose` object built for sample `n` (parent is the world frame). -/
def stablePose {T : Type} (s : StableSetup T) (n : Nat) : Pose T :=
  ⟨worldFrame s.g, s.obj, stableCandidate s n⟩

/-- The collision pair set of the generator: object bodies crossed with the
fixed bodies (empty when collision checking is disabled). -/
def stablePairs {T : Type} (s : StableSetup T) : Finset (Body × Body) :=
  s.mbp.modelBodies s.obj ×ˢ (if s.collisions then s.fixed else ∅)

/-- The shared context after `n` candidates have been assigned: every sampled
pose is assigned before its collision check, whether or not it is later
yielded. -/
def stableCtx {T : Type} (s : StableSetup T) : Nat → Context T
  | 0 => s.ctx
  | Nat.succ n => Pose.assign s.g (stablePose s n) (stableCtx s n)

/-- The decision of the generator at sample `n`: yield the pose when no colliding
pair exists in the just-assigned context, else silently skip.  The generator
itself never stops: this function is total in `n`, and the stream of yields
is its `filterMap` over any prefix the caller chooses to pull. -/
def stableYield {T : Type} (s : StableSetup T) (n : Nat) : Option (Pose T) :=
  if s.existsColliding (stableCtx s (n + 1)) (stablePairs s) then none
  else some (stablePose s n)

/-- C6: the stable-placement generator yields only collision-checked poses:
a yielded sample passed its collision check (and is the sampled pose), a
sample whose check reports a collision is silently skipped, and every pose
in any finite pulled prefix passed its check. -/
theorem stable_gen_only_collision_free {T : Type} (s : StableSetup T) :
    (∀ (n : Nat) (p : Pose T), stableYield s n = some p →
      s.existsColliding (stableCtx s (n + 1)) (stablePairs s) = false ∧
      p = stablePose s n) ∧
    (∀ n : Nat, s.existsColliding (stableCtx s (n + 1)) (stablePairs s) = true →
      stableYield s n = none) ∧
    (∀ (n : Nat) (p : Pose T), p ∈ (List.range n).filterMap (stableYield s) →
      ∃ k, p = stablePose s k ∧
        s.existsColliding (stableCtx s (k + 1)) (stablePairs s) = false) := by
  refine ⟨?_, ?_, ?_⟩
  · intro n p h
    rw [stableYield] at h
    by_cases hc : s.existsColliding (stableCtx s (n + 1)) (stablePairs s) = true
    · rw [if_pos hc] at h; exact absurd h (by simp)
    · have hcf : s.existsColliding (stableCtx s (n + 1)) (stablePairs s) = false := by
        simpa using hc
      rw [if_neg (by simp [hcf])] at h
      exact ⟨hcf, (Option.some.injEq _ _ ▸ h).symm⟩
  · intro n h
    rw [stableYield, if_pos h]
  · intro n p h
    rcases List.mem_filterMap.mp h with ⟨k, _, hk⟩
    rw [stableYield] at hk
    by_cases hc : s.existsColliding (stableCtx s (k + 1)) (stablePairs s) = true
    · rw [if_pos hc] at hk; exact absurd hk (by simp)
    · have hcf : s.existsColliding (stableCtx s (k + 1)) (stablePairs s) = false := by
        simpa using hc
      rw [if_neg (by simp [hcf])] at hk
      exact ⟨k, (Option.some.injEq _ _ ▸ hk).symm, hcf⟩

/-- A concrete stable-generator setup for witnesses: the collision service
reports a collision exactly on even samples (it reads the object
pose, which after sample `n` is `3 + n`). -/
def stableS : StableSetup Int :=
  ⟨gInt, ⟨fun m => {m}, fun j => j⟩, 0, true, {9},
    fun c _ => decide (c.worldPose 0 % 2 = 1), 1, 2, 0, fun n => n, ctx0⟩

/-- Witness for C6: in `stableS`, sample 0 collides and is skipped, while
sample 1 passes its check and is yielded. -/
theorem stable_gen_only_collision_free_witness :
    (stableYield stableS 1 = some (stablePose stableS 1) ∧
      stableS.existsColliding (stableCtx stableS 2) (stablePairs stableS) = false ∧
      stablePose stableS 1 = stablePose stableS 1) ∧
    (stableS.existsColliding (stableCtx stableS 1) (stablePairs stableS) = true ∧
      stableYield stableS 0 = none) :=
  ⟨⟨rfl,
    ((stable_gen_only_collision_free stableS).1 1 (stablePose stableS 1) rfl).1,
    ((stable_gen_only_collision_free stableS).1 1 (stablePose stableS 1) rfl).2⟩,
    ⟨rfl, (stable_gen_only_collision_free stableS).2.1 0 rfl⟩⟩

/-- C10: every sampled candidate is assigned into the shared context before
its collision check — the context after candidate `n` holds the
composed world pose for the object whether or not the candidate was yielded,
the check at sample `n` is evaluated on that post-assignment context, and
stopping after `n + 1` candidates leaves the context holding the pose of
the most recently sampled candidate. -/
theorem stable_gen_context_mutation {T : Type} (s : StableSetup T) (n : Nat) :
    (stableCtx s (n + 1)).worldPose s.obj
      = s.g.mul s.g.one (stableCandidate s n) ∧
    stableCtx s (n + 1) = Pose.assign s.g (stablePose s n) (stableCtx s n) ∧
    stableYield s n
      = (if s.existsColliding (stableCtx s (n + 1)) (stablePairs s) then none
         else some (stablePose s n)) := by
  refine ⟨?_, rfl, rfl⟩
  show (Pose.assign s.g (stablePose s n) (stableCtx s n)).worldPose s.obj = _
  simp [Pose.assign, setWorldPose, stablePose, worldFrame]

end DrakeGen
